import Mathlib

/-!
Verification of the ProfitPal referral-ledger and authentication core.

The definitions below are a shallow embedding of the Python sources:
`referral_manager.py` (referral codes, credit ledger, billing gate),
`auth_manager.py` (credential store, license issuer, credential validator,
session validation) and `security.py` / `main.py` (session lookup used by
request handlers, logout, CSRF double-submit check).

Modelling conventions:
- SQLite tables are lists of rows, in rowid order; `fetchone` on a
  `SELECT ... WHERE p` is `List.find?`; an `UPDATE ... WHERE p` maps the
  update over all rows satisfying `p`; an `INSERT` appends.
- Dollar amounts (REAL columns holding the literals 7.99, 0.00, 24.99)
  are modelled in integer cents, so 7.99 becomes `799`.
- Timestamps are natural numbers; the SQL comparison `expires_at > now`
  becomes `now < expires_at`.
- Library randomness (`random.sample`, `random.choices`, `secrets`),
  the current time and the SHA-256 hex digest are external effects: they
  enter the embedding as explicit parameters, constrained by hypotheses
  stating exactly what the library guarantees (e.g. `random.sample`
  returns distinct elements of its population).
- Fernet encryption is external: a `decrypt` oracle of type
  `String → Option String` stands for `AuthManager.decrypt_data`, with
  `none` for a failed decryption.
-/

namespace ProfitPal

/-! ## Referral ledger state (`referral_manager.py`, tables) -/

/-- Row of the `referrals` table. -/
structure ReferralRecord where
  user_email : String
  referral_code : String
  free_months_balance : Int
  total_referrals : Int
  total_earned_months : Int
deriving DecidableEq

/-- Row of the `referral_uses` table. -/
structure ReferralUse where
  referral_code : String
  referrer_email : String
  new_user_email : String
  payment_amount : Nat
  reward_months : Int
deriving DecidableEq

/-- Row of the `free_months_history` table. -/
structure FreeMonthsHistoryRow where
  user_email : String
  action_type : String
  months_change : Int
  balance_after : Int
deriving DecidableEq

/-- The referral database: the three tables of `init_database`. -/
structure ReferralDB where
  referrals : List ReferralRecord
  uses : List ReferralUse
  history : List FreeMonthsHistoryRow
deriving DecidableEq

/-- Lookup `SELECT ... FROM referrals WHERE referral_code = ?` (first row). -/
def findByCode (db : ReferralDB) (code : String) : Option ReferralRecord :=
  db.referrals.find? (fun r => r.referral_code == code)

/-- Lookup `SELECT ... FROM referrals WHERE user_email = ?` (first row). -/
def findByEmail (db : ReferralDB) (email : String) : Option ReferralRecord :=
  db.referrals.find? (fun r => r.user_email == email)

/-- The duplicate check `SELECT COUNT(*) FROM referral_uses WHERE
referral_code = ? AND new_user_email = ?` compared with 0. -/
def pairAlreadyUsed (db : ReferralDB) (code new_user_email : String) : Bool :=
  db.uses.any (fun u => u.referral_code == code && u.new_user_email == new_user_email)

/-- Outcome dictionary of `process_referral_signup`. -/
inductive SignupOutcome where
  | invalidCode
  | alreadyUsed
  | ok (referrer_email : String) (reward_months : Int) (new_balance : Int)
deriving DecidableEq

/-- Embedding of `ReferralManager.process_referral_signup` (lines 197-279).
The reward is the literal `reward_months = 1`; the re-read of
`total_earned_months` by referral code returns the same first row that the
initial `SELECT` fetched, since nothing is written in between. -/
def process_referral_signup (db : ReferralDB) (referral_code new_user_email : String)
    (payment_amount : Nat) : SignupOutcome × ReferralDB :=
  match findByCode db referral_code with
  | none => (.invalidCode, db)
  | some referrer =>
    if pairAlreadyUsed db referral_code new_user_email then
      (.alreadyUsed, db)
    else
      let reward_months : Int := 1
      let new_balance := referrer.free_months_balance + reward_months
      let new_total_referrals := referrer.total_referrals + 1
      let new_total_earned := referrer.total_earned_months + reward_months
      let referrals_upd := db.referrals.map (fun r =>
        if r.referral_code == referral_code then
          { r with free_months_balance := new_balance,
                   total_referrals := new_total_referrals,
                   total_earned_months := new_total_earned }
        else r)
      let use_row : ReferralUse :=
        ⟨referral_code, referrer.user_email, new_user_email, payment_amount, reward_months⟩
      let hist_row : FreeMonthsHistoryRow :=
        ⟨referrer.user_email, "earned", reward_months, new_balance⟩
      (.ok referrer.user_email reward_months new_balance,
       { referrals := referrals_upd,
         uses := db.uses ++ [use_row],
         history := db.history ++ [hist_row] })

/-- Result dictionary of `check_and_use_free_month`; `charge_amount` in cents. -/
structure ChargeResult where
  should_charge : Bool
  charge_amount : Nat
  free_months_remaining : Int
deriving DecidableEq

/-- The full monthly price, 7.99 dollars, in cents. -/
def fullChargeCents : Nat := 799

/-- Embedding of `ReferralManager.check_and_use_free_month` (lines 281-351),
the non-raising paths of the `try` body. -/
def check_and_use_free_month (db : ReferralDB) (user_email : String) :
    ChargeResult × ReferralDB :=
  match findByEmail db user_email with
  | none => (⟨true, fullChargeCents, 0⟩, db)
  | some r =>
    if 0 < r.free_months_balance then
      let new_balance := r.free_months_balance - 1
      let referrals_upd := db.referrals.map (fun x =>
        if x.user_email == user_email then
          { x with free_months_balance := new_balance }
        else x)
      let hist_row : FreeMonthsHistoryRow := ⟨user_email, "used", -1, new_balance⟩
      (⟨false, 0, new_balance⟩,
       { db with referrals := referrals_upd, history := db.history ++ [hist_row] })
    else
      (⟨true, fullChargeCents, 0⟩, db)

/-- Embedding of `check_and_use_free_month` including its `except` clause:
when the ledger read raises (`raised = true`), the function returns the
charge-in-full dictionary of lines 346-351 and the database is untouched
(the transaction was never committed). -/
def check_and_use_free_month_ex (raised : Bool) (db : ReferralDB) (user_email : String) :
    ChargeResult × ReferralDB :=
  if raised then (⟨true, fullChargeCents, 0⟩, db)
  else check_and_use_free_month db user_email

/-! ## Helper lemmas -/

/-- Explicit-argument form of `List.find?_some`. -/
theorem find?_pred {α : Type} (p : α → Bool) (l : List α) (a : α)
    (h : l.find? p = some a) : p a = true :=
  List.find?_some h

/-- Explicit-argument form of `List.mem_of_find?_eq_some`. -/
theorem find?_mem {α : Type} (p : α → Bool) (l : List α) (a : α)
    (h : l.find? p = some a) : a ∈ l :=
  List.mem_of_find?_eq_some h

/-- An `UPDATE ... WHERE p` (a conditional map) commutes with `fetchone`
(`find?`) when the update never changes whether a row matches `p`. -/
theorem find?_map_pres {α : Type} (p : α → Bool) (g : α → α) (l : List α)
    (hg : ∀ x, p (g x) = p x) : (l.map g).find? p = (l.find? p).map g := by
  rw [List.find?_map]
  have hpg : (p ∘ g) = p := funext hg
  rw [hpg]

/-! ## Branch equations for the two ledger operations -/

/-- Signup with an unknown code is rejected and leaves the state unchanged. -/
theorem signup_none (db : ReferralDB) (code email : String) (amount : Nat)
    (h : findByCode db code = none) :
    process_referral_signup db code email amount = (.invalidCode, db) := by
  unfold process_referral_signup
  rw [h]

/-- Signup with an already-redeemed (code, email) pair is rejected and
leaves the state unchanged. -/
theorem signup_used (db : ReferralDB) (code email : String) (amount : Nat)
    (r : ReferralRecord) (hfind : findByCode db code = some r)
    (hused : pairAlreadyUsed db code email = true) :
    process_referral_signup db code email amount = (.alreadyUsed, db) := by
  unfold process_referral_signup
  rw [hfind, hused]
  simp

/-- The accepting branch of `process_referral_signup`, written out. -/
theorem signup_accepts (db : ReferralDB) (code email : String) (amount : Nat)
    (r : ReferralRecord) (hfind : findByCode db code = some r)
    (hnew : pairAlreadyUsed db code email = false) :
    process_referral_signup db code email amount =
      (.ok r.user_email 1 (r.free_months_balance + 1),
       { referrals := db.referrals.map (fun x =>
           if x.referral_code == code then
             { x with free_months_balance := r.free_months_balance + 1,
                      total_referrals := r.total_referrals + 1,
                      total_earned_months := r.total_earned_months + 1 }
           else x),
         uses := db.uses ++ [⟨code, r.user_email, email, amount, 1⟩],
         history := db.history ++ [⟨r.user_email, "earned", 1, r.free_months_balance + 1⟩] }) := by
  unfold process_referral_signup
  rw [hfind, hnew]
  simp

/-- Billing with no referral record charges in full, state unchanged. -/
theorem billing_none (db : ReferralDB) (email : String)
    (h : findByEmail db email = none) :
    check_and_use_free_month db email = (⟨true, fullChargeCents, 0⟩, db) := by
  unfold check_and_use_free_month
  rw [h]

/-- Billing with a positive balance: the decrementing branch, written out. -/
theorem billing_pos (db : ReferralDB) (email : String) (r : ReferralRecord)
    (hfind : findByEmail db email = some r) (hpos : 0 < r.free_months_balance) :
    check_and_use_free_month db email =
      (⟨false, 0, r.free_months_balance - 1⟩,
       { db with
         referrals := db.referrals.map (fun x =>
           if x.user_email == email then
             { x with free_months_balance := r.free_months_balance - 1 }
           else x),
         history := db.history ++ [⟨email, "used", -1, r.free_months_balance - 1⟩] }) := by
  unfold check_and_use_free_month
  rw [hfind]
  simp [hpos]

/-- Billing with a non-positive balance charges in full, state unchanged. -/
theorem billing_nonpos (db : ReferralDB) (email : String) (r : ReferralRecord)
    (hfind : findByEmail db email = some r) (hz : ¬ 0 < r.free_months_balance) :
    check_and_use_free_month db email = (⟨true, fullChargeCents, 0⟩, db) := by
  unfold check_and_use_free_month
  rw [hfind]
  simp [hz]

/-! ## Claim C1: redemption is exactly-once and rewards exactly one credit -/

/-- Claim C1: redeeming a referral code twice with identical arguments
succeeds the first time and is rejected the second time; across both calls
the referrer's balance, lifetime referral count and lifetime earned count
each grow by exactly 1 (independent of the payment amount), and exactly one
`referral_uses` row and one `earned` history row are appended. -/
theorem referral_redeem_exactly_once
    (db : ReferralDB) (code email : String) (amount : Nat) (r : ReferralRecord)
    (hfind : findByCode db code = some r)
    (hnew : pairAlreadyUsed db code email = false) :
    let step1 := process_referral_signup db code email amount
    step1.1 = .ok r.user_email 1 (r.free_months_balance + 1) ∧
    process_referral_signup step1.2 code email amount = (.alreadyUsed, step1.2) ∧
    findByCode step1.2 code =
      some { r with free_months_balance := r.free_months_balance + 1,
                    total_referrals := r.total_referrals + 1,
                    total_earned_months := r.total_earned_months + 1 } ∧
    step1.2.uses = db.uses ++ [⟨code, r.user_email, email, amount, 1⟩] ∧
    step1.2.history = db.history ++ [⟨r.user_email, "earned", 1, r.free_months_balance + 1⟩] := by
  intro step1
  have hfind' : db.referrals.find? (fun x => x.referral_code == code) = some r := hfind
  have hcode : (r.referral_code == code) = true :=
    find?_pred (fun x => x.referral_code == code) db.referrals r hfind'
  have hstep1 : step1 = process_referral_signup db code email amount := rfl
  rw [signup_accepts db code email amount r hfind hnew] at hstep1
  have hfind1 : findByCode step1.2 code =
      some { r with free_months_balance := r.free_months_balance + 1,
                    total_referrals := r.total_referrals + 1,
                    total_earned_months := r.total_earned_months + 1 } := by
    rw [hstep1]
    show (db.referrals.map _).find? _ = _
    rw [find?_map_pres (fun x => x.referral_code == code) _ db.referrals]
    · rw [hfind']
      have hceq : r.referral_code = code := beq_iff_eq.mp hcode
      simp [hceq]
    · intro x
      by_cases hx : (x.referral_code == code) = true
      · simp [hx]
      · simp [hx]
  refine ⟨by rw [hstep1], ?_, hfind1, by rw [hstep1], by rw [hstep1]⟩
  have hused1 : pairAlreadyUsed step1.2 code email = true := by
    rw [hstep1]
    simp [pairAlreadyUsed]
  exact signup_used _ code email amount _ hfind1 hused1

/-- Concrete instance of claim C1: in a one-record database the hypotheses
of `referral_redeem_exactly_once` hold and its conclusion evaluates. -/
theorem referral_redeem_exactly_once_witness :
    findByCode ⟨[⟨"alice@example.com", "ABCDE12345fghij", 0, 0, 0⟩], [], []⟩ "ABCDE12345fghij" =
      some ⟨"alice@example.com", "ABCDE12345fghij", 0, 0, 0⟩ ∧
    pairAlreadyUsed ⟨[⟨"alice@example.com", "ABCDE12345fghij", 0, 0, 0⟩], [], []⟩
      "ABCDE12345fghij" "bob@example.com" = false ∧
    (let step1 := process_referral_signup
        ⟨[⟨"alice@example.com", "ABCDE12345fghij", 0, 0, 0⟩], [], []⟩
        "ABCDE12345fghij" "bob@example.com" 2999
     step1.1 = .ok "alice@example.com" 1 (0 + 1) ∧
     process_referral_signup step1.2 "ABCDE12345fghij" "bob@example.com" 2999 =
       (.alreadyUsed, step1.2) ∧
     findByCode step1.2 "ABCDE12345fghij" =
       some { user_email := "alice@example.com", referral_code := "ABCDE12345fghij",
              free_months_balance := 0 + 1, total_referrals := 0 + 1,
              total_earned_months := 0 + 1 } ∧
     step1.2.uses = [] ++ [⟨"ABCDE12345fghij", "alice@example.com", "bob@example.com", 2999, 1⟩] ∧
     step1.2.history = [] ++ [⟨"alice@example.com", "earned", 1, 0 + 1⟩]) :=
  ⟨by decide, by decide,
   referral_redeem_exactly_once
     ⟨[⟨"alice@example.com", "ABCDE12345fghij", 0, 0, 0⟩], [], []⟩
     "ABCDE12345fghij" "bob@example.com" 2999
     ⟨"alice@example.com", "ABCDE12345fghij", 0, 0, 0⟩ (by decide) (by decide)⟩

/-! ## Claim C2: the monthly billing gate -/

/-- Claim C2: `check_and_use_free_month` charges in full when no referral
record exists; with a positive balance it decrements by one, appends a
`used` history row and reports no charge with the decremented balance; with
a zero balance it charges in full and leaves the state unchanged; and when
the ledger read raises it degrades to charging in full. -/
theorem billing_gate_cases (db : ReferralDB) (email : String) :
    (findByEmail db email = none →
      check_and_use_free_month db email = (⟨true, fullChargeCents, 0⟩, db)) ∧
    (∀ r, findByEmail db email = some r → 0 < r.free_months_balance →
      (check_and_use_free_month db email).1 = ⟨false, 0, r.free_months_balance - 1⟩ ∧
      findByEmail (check_and_use_free_month db email).2 email =
        some { r with free_months_balance := r.free_months_balance - 1 } ∧
      (check_and_use_free_month db email).2.history =
        db.history ++ [⟨email, "used", -1, r.free_months_balance - 1⟩] ∧
      (check_and_use_free_month db email).2.uses = db.uses) ∧
    (∀ r, findByEmail db email = some r → r.free_months_balance = 0 →
      check_and_use_free_month db email = (⟨true, fullChargeCents, 0⟩, db)) ∧
    check_and_use_free_month_ex true db email = (⟨true, fullChargeCents, 0⟩, db) := by
  refine ⟨fun h => billing_none db email h, ?_, ?_, by simp [check_and_use_free_month_ex]⟩
  · intro r hfind hpos
    have hfind' : db.referrals.find? (fun x => x.user_email == email) = some r := hfind
    have hem : (r.user_email == email) = true :=
      find?_pred (fun x => x.user_email == email) db.referrals r hfind'
    have hemeq : r.user_email = email := beq_iff_eq.mp hem
    rw [billing_pos db email r hfind hpos]
    refine ⟨rfl, ?_, rfl, rfl⟩
    show (db.referrals.map _).find? _ = _
    rw [find?_map_pres (fun x => x.user_email == email) _ db.referrals]
    · rw [hfind']
      simp [hemeq]
    · intro x
      by_cases hx : (x.user_email == email) = true
      · simp [hx]
      · simp [hx]
  · intro r hfind hz
    exact billing_nonpos db email r hfind (by omega)

/-- Concrete instance of claim C2, the end-to-end scenario B of the spec:
alice has balance 1; the first billing call consumes the credit and reports
no charge with 0 remaining; the record now shows balance 0. -/
theorem billing_gate_cases_witness :
    findByEmail ⟨[⟨"alice@example.com", "ABCDE12345fghij", 1, 1, 1⟩], [], []⟩
        "alice@example.com" = some ⟨"alice@example.com", "ABCDE12345fghij", 1, 1, 1⟩ ∧
    (0 : Int) < 1 ∧
    ((check_and_use_free_month ⟨[⟨"alice@example.com", "ABCDE12345fghij", 1, 1, 1⟩], [], []⟩
        "alice@example.com").1 = ⟨false, 0, 1 - 1⟩ ∧
     findByEmail (check_and_use_free_month
        ⟨[⟨"alice@example.com", "ABCDE12345fghij", 1, 1, 1⟩], [], []⟩
        "alice@example.com").2 "alice@example.com" =
       some { user_email := "alice@example.com", referral_code := "ABCDE12345fghij",
              free_months_balance := 1 - 1, total_referrals := 1, total_earned_months := 1 } ∧
     (check_and_use_free_month ⟨[⟨"alice@example.com", "ABCDE12345fghij", 1, 1, 1⟩], [], []⟩
        "alice@example.com").2.history =
       [] ++ [⟨"alice@example.com", "used", -1, 1 - 1⟩] ∧
     (check_and_use_free_month ⟨[⟨"alice@example.com", "ABCDE12345fghij", 1, 1, 1⟩], [], []⟩
        "alice@example.com").2.uses = []) :=
  ⟨by decide, by decide,
   (billing_gate_cases ⟨[⟨"alice@example.com", "ABCDE12345fghij", 1, 1, 1⟩], [], []⟩
      "alice@example.com").2.1
     ⟨"alice@example.com", "ABCDE12345fghij", 1, 1, 1⟩ (by decide) (by decide)⟩

/-! ## Claim C3: ledger conservation and non-negative balances -/

/-- Number of `earned` history rows of one user. -/
def earnedCount (hist : List FreeMonthsHistoryRow) (email : String) : Nat :=
  (hist.filter (fun h => h.user_email == email && h.action_type == "earned")).length

/-- Number of `used` history rows of one user. -/
def usedCount (hist : List FreeMonthsHistoryRow) (email : String) : Nat :=
  (hist.filter (fun h => h.user_email == email && h.action_type == "used")).length

/-- One record is reconciled against the history and non-negative. -/
def RecordOk (hist : List FreeMonthsHistoryRow) (r : ReferralRecord) : Prop :=
  r.free_months_balance =
    (earnedCount hist r.user_email : Int) - (usedCount hist r.user_email : Int) ∧
  0 ≤ r.free_months_balance

/-- The conservation invariant over the whole database. -/
def LedgerInvariant (db : ReferralDB) : Prop :=
  ∀ r ∈ db.referrals, RecordOk db.history r

/-- The UNIQUE constraints of the `referrals` table: pairwise distinct
emails and referral codes. -/
def DistinctKeys (db : ReferralDB) : Prop :=
  db.referrals.Pairwise
    (fun a b => a.user_email ≠ b.user_email ∧ a.referral_code ≠ b.referral_code)

theorem distinctKeys_symm :
    Symmetric (fun a b : ReferralRecord =>
      a.user_email ≠ b.user_email ∧ a.referral_code ≠ b.referral_code) := by
  intro a b h
  exact ⟨h.1.symm, h.2.symm⟩

/-- With distinct codes, a record sharing the code of a member record is
that record. -/
theorem distinct_unique_code (db : ReferralDB) (hd : DistinctKeys db)
    (r x : ReferralRecord) (hr : r ∈ db.referrals) (hx : x ∈ db.referrals)
    (hc : x.referral_code = r.referral_code) : x = r := by
  by_contra hne
  exact (List.Pairwise.forall distinctKeys_symm hd hx hr hne).2 hc

/-- With distinct emails, a record sharing the email of a member record is
that record. -/
theorem distinct_unique_email (db : ReferralDB) (hd : DistinctKeys db)
    (r x : ReferralRecord) (hr : r ∈ db.referrals) (hx : x ∈ db.referrals)
    (hc : x.user_email = r.user_email) : x = r := by
  by_contra hne
  exact (List.Pairwise.forall distinctKeys_symm hd hx hr hne).1 hc

theorem earnedCount_append (hist : List FreeMonthsHistoryRow)
    (row : FreeMonthsHistoryRow) (email : String) :
    earnedCount (hist ++ [row]) email =
      earnedCount hist email +
        (if row.user_email == email && row.action_type == "earned" then 1 else 0) := by
  simp only [earnedCount, List.filter_append]
  cases h : (row.user_email == email && row.action_type == "earned") <;> simp [h]

theorem usedCount_append (hist : List FreeMonthsHistoryRow)
    (row : FreeMonthsHistoryRow) (email : String) :
    usedCount (hist ++ [row]) email =
      usedCount hist email +
        (if row.user_email == email && row.action_type == "used" then 1 else 0) := by
  simp only [usedCount, List.filter_append]
  cases h : (row.user_email == email && row.action_type == "used") <;> simp [h]

/-- A rowwise update that changes neither emails nor codes preserves the
UNIQUE constraints. -/
theorem pairwise_keys_map (l : List ReferralRecord) (g : ReferralRecord → ReferralRecord)
    (hg1 : ∀ x, (g x).user_email = x.user_email)
    (hg2 : ∀ x, (g x).referral_code = x.referral_code)
    (hd : l.Pairwise (fun a b => a.user_email ≠ b.user_email ∧ a.referral_code ≠ b.referral_code)) :
    (l.map g).Pairwise
      (fun a b => a.user_email ≠ b.user_email ∧ a.referral_code ≠ b.referral_code) := by
  rw [List.pairwise_map]
  refine List.Pairwise.imp ?_ hd
  intro a b hab
  constructor
  · rw [hg1, hg1]; exact hab.1
  · rw [hg2, hg2]; exact hab.2

/-- `process_referral_signup` preserves the UNIQUE constraints and the
conservation invariant. -/
theorem signup_preserves (db : ReferralDB) (code email : String) (amount : Nat)
    (hd : DistinctKeys db) (hi : LedgerInvariant db) :
    DistinctKeys (process_referral_signup db code email amount).2 ∧
    LedgerInvariant (process_referral_signup db code email amount).2 := by
  cases hfc : findByCode db code with
  | none =>
    rw [signup_none db code email amount hfc]
    exact ⟨hd, hi⟩
  | some r =>
    cases hb : pairAlreadyUsed db code email with
    | true =>
      rw [signup_used db code email amount r hfc hb]
      exact ⟨hd, hi⟩
    | false =>
      rw [signup_accepts db code email amount r hfc hb]
      have hfind' : db.referrals.find? (fun x => x.referral_code == code) = some r := hfc
      have hrmem : r ∈ db.referrals :=
        find?_mem (fun x => x.referral_code == code) db.referrals r hfind'
      have hcode : r.referral_code = code :=
        beq_iff_eq.mp (find?_pred (fun x => x.referral_code == code) db.referrals r hfind')
      constructor
      · refine pairwise_keys_map db.referrals _ ?_ ?_ hd
        · intro x
          by_cases hx : (x.referral_code == code) = true <;> simp [hx]
        · intro x
          by_cases hx : (x.referral_code == code) = true <;> simp [hx]
      · intro x' hx'
        obtain ⟨x, hx, rfl⟩ := List.mem_map.mp hx'
        by_cases hxc : (x.referral_code == code) = true
        · have hxr : x = r := distinct_unique_code db hd r x hrmem hx
            ((beq_iff_eq.mp hxc).trans hcode.symm)
          subst hxr
          obtain ⟨hbal, hnn⟩ := hi x hx
          rw [if_pos hxc]
          refine ⟨?_, ?_⟩
          · simp [RecordOk, earnedCount_append, usedCount_append] at hbal ⊢
            omega
          · show (0 : Int) ≤ x.free_months_balance + 1
            omega
        · have hne : r.user_email ≠ x.user_email := by
            intro heq
            have : x = r := distinct_unique_email db hd r x hrmem hx heq.symm
            rw [this, hcode] at hxc
            simp at hxc
          obtain ⟨hbal, hnn⟩ := hi x hx
          rw [if_neg hxc]
          refine ⟨?_, ?_⟩
          · simp [earnedCount_append, usedCount_append, hne] at hbal ⊢
            omega
          · exact hnn

/-- `check_and_use_free_month` preserves the UNIQUE constraints and the
conservation invariant. -/
theorem billing_preserves (db : ReferralDB) (email : String)
    (hd : DistinctKeys db) (hi : LedgerInvariant db) :
    DistinctKeys (check_and_use_free_month db email).2 ∧
    LedgerInvariant (check_and_use_free_month db email).2 := by
  cases hfc : findByEmail db email with
  | none =>
    rw [billing_none db email hfc]
    exact ⟨hd, hi⟩
  | some r =>
    by_cases hpos : 0 < r.free_months_balance
    · rw [billing_pos db email r hfc hpos]
      have hfind' : db.referrals.find? (fun x => x.user_email == email) = some r := hfc
      have hrmem : r ∈ db.referrals :=
        find?_mem (fun x => x.user_email == email) db.referrals r hfind'
      have hemail : r.user_email = email :=
        beq_iff_eq.mp (find?_pred (fun x => x.user_email == email) db.referrals r hfind')
      constructor
      · refine pairwise_keys_map db.referrals _ ?_ ?_ hd
        · intro x
          by_cases hx : (x.user_email == email) = true <;> simp [hx]
        · intro x
          by_cases hx : (x.user_email == email) = true <;> simp [hx]
      · intro x' hx'
        obtain ⟨x, hx, rfl⟩ := List.mem_map.mp hx'
        by_cases hxc : (x.user_email == email) = true
        · have hxr : x = r := distinct_unique_email db hd r x hrmem hx
            ((beq_iff_eq.mp hxc).trans hemail.symm)
          subst hxr
          obtain ⟨hbal, hnn⟩ := hi x hx
          rw [if_pos hxc]
          refine ⟨?_, ?_⟩
          · have hxe : x.user_email = email := beq_iff_eq.mp hxc
            simp [earnedCount_append, usedCount_append, hxe] at hbal ⊢
            omega
          · show (0 : Int) ≤ x.free_months_balance - 1
            omega
        · have hne : email ≠ x.user_email := by
            intro heq
            rw [heq] at hxc
            simp at hxc
          obtain ⟨hbal, hnn⟩ := hi x hx
          rw [if_neg hxc]
          refine ⟨?_, ?_⟩
          · simp [earnedCount_append, usedCount_append, hne] at hbal ⊢
            omega
          · exact hnn
    · rw [billing_nonpos db email r hfc hpos]
      exact ⟨hd, hi⟩

/-- One ledger call: a `process_referral_signup` (redeem) or a
`check_and_use_free_month` (billing gate) invocation. -/
inductive LedgerOp where
  | signup (code email : String) (amount : Nat)
  | billing (email : String)
deriving DecidableEq

/-- The state after one ledger call. -/
def applyOp (db : ReferralDB) : LedgerOp → ReferralDB
  | .signup code email amount => (process_referral_signup db code email amount).2
  | .billing email => (check_and_use_free_month db email).2

/-- The state after a sequence of ledger calls. -/
def applyOps (db : ReferralDB) (ops : List LedgerOp) : ReferralDB :=
  ops.foldl applyOp db

/-- A freshly issued ledger: every record was persisted with a zero
balance (as `create_referral_for_user` does) and no history was written. -/
def FreshLedger (db : ReferralDB) : Prop :=
  (∀ r ∈ db.referrals, r.free_months_balance = 0) ∧ db.history = []

theorem fresh_invariant (db : ReferralDB) (hf : FreshLedger db) :
    LedgerInvariant db := by
  intro r hr
  obtain ⟨hz, hh⟩ := hf
  refine ⟨?_, ?_⟩
  · rw [hz r hr, hh]
    simp [earnedCount, usedCount]
  · rw [hz r hr]

theorem invariant_applyOp (db : ReferralDB) (op : LedgerOp)
    (hd : DistinctKeys db) (hi : LedgerInvariant db) :
    DistinctKeys (applyOp db op) ∧ LedgerInvariant (applyOp db op) := by
  cases op with
  | signup code email amount => exact signup_preserves db code email amount hd hi
  | billing email => exact billing_preserves db email hd hi

theorem invariant_applyOps (db : ReferralDB) (ops : List LedgerOp)
    (hd : DistinctKeys db) (hi : LedgerInvariant db) :
    DistinctKeys (applyOps db ops) ∧ LedgerInvariant (applyOps db ops) := by
  induction ops generalizing db with
  | nil => exact ⟨hd, hi⟩
  | cons op rest ih =>
    have hstep := invariant_applyOp db op hd hi
    exact ih (applyOp db op) hstep.1 hstep.2

/-- Claim C3: after any sequence of redeem and billing-gate calls starting
from a freshly issued ledger whose records satisfy the UNIQUE constraints,
every balance equals the count of its `earned` history rows minus its
`used` rows, and at every point of the sequence every balance is
non-negative. -/
theorem ledger_conservation (db : ReferralDB) (ops : List LedgerOp)
    (hd : DistinctKeys db) (hf : FreshLedger db) :
    (∀ r ∈ (applyOps db ops).referrals,
       r.free_months_balance =
         (earnedCount (applyOps db ops).history r.user_email : Int) -
           (usedCount (applyOps db ops).history r.user_email : Int) ∧
       0 ≤ r.free_months_balance) ∧
    (∀ pre suf, ops = pre ++ suf →
       ∀ r ∈ (applyOps db pre).referrals, 0 ≤ r.free_months_balance) := by
  have hmain := invariant_applyOps db ops hd (fresh_invariant db hf)
  refine ⟨fun r hr => (hmain.2 r hr), ?_⟩
  intro pre suf hsplit r hr
  have hpre := invariant_applyOps db pre hd (fresh_invariant db hf)
  exact (hpre.2 r hr).2

/-- Concrete instance of claim C3: a fresh one-record database, one
redemption followed by two billing calls; the hypotheses hold and the
invariant holds at the end. -/
theorem ledger_conservation_witness :
    DistinctKeys ⟨[⟨"alice@example.com", "ABCDE12345fghij", 0, 0, 0⟩], [], []⟩ ∧
    FreshLedger ⟨[⟨"alice@example.com", "ABCDE12345fghij", 0, 0, 0⟩], [], []⟩ ∧
    (∀ r ∈ (applyOps ⟨[⟨"alice@example.com", "ABCDE12345fghij", 0, 0, 0⟩], [], []⟩
        [.signup "ABCDE12345fghij" "bob@example.com" 2999,
         .billing "alice@example.com", .billing "alice@example.com"]).referrals,
       r.free_months_balance =
         (earnedCount (applyOps ⟨[⟨"alice@example.com", "ABCDE12345fghij", 0, 0, 0⟩], [], []⟩
            [.signup "ABCDE12345fghij" "bob@example.com" 2999,
             .billing "alice@example.com", .billing "alice@example.com"]).history
            r.user_email : Int) -
           (usedCount (applyOps ⟨[⟨"alice@example.com", "ABCDE12345fghij", 0, 0, 0⟩], [], []⟩
            [.signup "ABCDE12345fghij" "bob@example.com" 2999,
             .billing "alice@example.com", .billing "alice@example.com"]).history
            r.user_email : Int) ∧
       0 ≤ r.free_months_balance) :=
  ⟨by simp [DistinctKeys], by simp [FreshLedger],
   (ledger_conservation ⟨[⟨"alice@example.com", "ABCDE12345fghij", 0, 0, 0⟩], [], []⟩
      [.signup "ABCDE12345fghij" "bob@example.com" 2999,
       .billing "alice@example.com", .billing "alice@example.com"]
      (by simp [DistinctKeys]) (by simp [FreshLedger])).1⟩

/-! ## Claim C8: referral code generation
(`generate_unique_referral_code`, `_generate_fallback_code`,
`validate_referral_code_format`; Python strings are `List Char` here) -/

/-- The population `string.ascii_lowercase`. -/
def ascii_lowercase : List Char := "abcdefghijklmnopqrstuvwxyz".toList

/-- The population `string.ascii_uppercase`. -/
def ascii_uppercase : List Char := "ABCDEFGHIJKLMNOPQRSTUVWXYZ".toList

/-- The random draws one loop iteration of `generate_unique_referral_code`
consumes: `random.sample(ascii_lowercase, 5)`, then
`random.sample(remaining_letters, 5)`, then five `random.randint(0, 9)`. -/
structure CodeDraw where
  selected_letters : List Char
  upper_sample : List Char
  digit_draws : List Nat
deriving DecidableEq

/-- `remaining_letters`: the lowercase alphabet minus the selected letters. -/
def remainingLetters (selected : List Char) : List Char :=
  ascii_lowercase.filter (fun c => !selected.contains c)

/-- The code built by one loop iteration: uppercased sample, then the digit
characters, then the selected lowercase letters. -/
def mkStructuredCode (d : CodeDraw) : List Char :=
  d.upper_sample.map Char.toUpper ++ d.digit_draws.map Nat.digitChar ++ d.selected_letters

/-- What `random.sample` and `random.randint` guarantee about one
iteration's draws. -/
def ValidDraw (d : CodeDraw) : Prop :=
  d.selected_letters.length = 5 ∧ d.selected_letters.Nodup ∧
  (∀ c ∈ d.selected_letters, c ∈ ascii_lowercase) ∧
  d.upper_sample.length = 5 ∧
  (∀ c ∈ d.upper_sample, c ∈ remainingLetters d.selected_letters) ∧
  d.digit_draws.length = 5 ∧ (∀ n ∈ d.digit_draws, n ≤ 9)

/-- The draws `_generate_fallback_code` consumes:
`int(datetime.now().timestamp())` and two `random.choices(..., k=5)`
(with replacement). -/
structure FallbackDraw where
  timestamp : Nat
  upper_choices : List Char
  lower_choices : List Char
deriving DecidableEq

/-- What the libraries guarantee about the fallback draws; Unix timestamps
have at least five decimal digits. -/
def ValidFallbackDraw (fb : FallbackDraw) : Prop :=
  fb.upper_choices.length = 5 ∧ (∀ c ∈ fb.upper_choices, c ∈ ascii_uppercase) ∧
  fb.lower_choices.length = 5 ∧ (∀ c ∈ fb.lower_choices, c ∈ ascii_lowercase) ∧
  10000 ≤ fb.timestamp

/-- Fuel-bounded helper for `natDigits`; the fuel always suffices because a
number has at most as many decimal digits as its own value. -/
def natDigitsAux (fuel n : Nat) : List Char :=
  match fuel with
  | 0 => []
  | fuel + 1 =>
    if n < 10 then [Nat.digitChar n]
    else natDigitsAux fuel (n / 10) ++ [Nat.digitChar (n % 10)]

/-- Decimal rendering of a natural number, most significant digit first:
the embedding of Python `str(int(...))`. -/
def natDigits (n : Nat) : List Char := natDigitsAux (n + 1) n

theorem natDigitsAux_congr : ∀ f1 f2 n, n < f1 → n < f2 →
    natDigitsAux f1 n = natDigitsAux f2 n := by
  intro f1
  induction f1 with
  | zero => intro f2 n h1; omega
  | succ f1 ih =>
    intro f2 n h1 h2
    cases f2 with
    | zero => omega
    | succ f2 =>
      rw [natDigitsAux, natDigitsAux]
      by_cases h : n < 10
      · rw [if_pos h, if_pos h]
      · rw [if_neg h, if_neg h]
        have hlt : n / 10 < n := Nat.div_lt_self (by omega) (by omega)
        rw [ih f2 (n / 10) (by omega) (by omega)]

/-- The defining recurrence of `natDigits`. -/
theorem natDigits_eq (n : Nat) :
    natDigits n = if n < 10 then [Nat.digitChar n]
      else natDigits (n / 10) ++ [Nat.digitChar (n % 10)] := by
  rw [natDigits, natDigitsAux]
  by_cases h : n < 10
  · rw [if_pos h, if_pos h]
  · rw [if_neg h, if_neg h, natDigits]
    have hlt : n / 10 < n := Nat.div_lt_self (by omega) (by omega)
    rw [natDigitsAux_congr n (n / 10 + 1) (n / 10) (by omega) (by omega)]

/-- Python slicing `s[-5:]`: the last five characters (all of them when the
string is shorter). -/
def lastFive (s : List Char) : List Char := s.drop (s.length - 5)

/-- Embedding of `ReferralManager._generate_fallback_code` (lines 129-134). -/
def generate_fallback_code (fb : FallbackDraw) : List Char :=
  fb.upper_choices ++ lastFive (natDigits fb.timestamp) ++ fb.lower_choices

/-- Embedding of `ReferralManager.generate_unique_referral_code`
(lines 84-127). The bounded retry loop is the list of draws (100 entries in
the source); `codeExists` is the database lookup `referral_code_exists`;
exhausting the draws falls back to `_generate_fallback_code`. -/
def generate_unique_referral_code (draws : List CodeDraw)
    (codeExists : List Char → Bool) (fb : FallbackDraw) : List Char :=
  match draws with
  | [] => generate_fallback_code fb
  | d :: rest =>
    if (remainingLetters d.selected_letters).length < 5 then
      generate_unique_referral_code rest codeExists fb
    else
      let code := mkStructuredCode d
      if codeExists code then generate_unique_referral_code rest codeExists fb
      else code

/-- Python `str.isalpha` on ASCII data. -/
def pyIsAlpha (s : List Char) : Bool := !s.isEmpty && s.all (fun c => c.isAlpha)

/-- Python `str.isdigit` on ASCII data. -/
def pyIsDigit (s : List Char) : Bool := !s.isEmpty && s.all (fun c => c.isDigit)

/-- Python `str.isupper` on ASCII data: some cased character, and no
lowercase character. -/
def pyIsUpper (s : List Char) : Bool :=
  s.any (fun c => c.isAlpha) && s.all (fun c => !c.isLower)

/-- Python `str.islower` on ASCII data. -/
def pyIsLower (s : List Char) : Bool :=
  s.any (fun c => c.isAlpha) && s.all (fun c => !c.isUpper)

/-- Embedding of `ReferralManager.validate_referral_code_format`
(lines 452-469). -/
def validate_referral_code_format (code : List Char) : Bool :=
  if code.length ≠ 15 then false
  else if !(pyIsUpper (code.take 5)) || !(pyIsAlpha (code.take 5)) then false
  else if !(pyIsDigit ((code.drop 5).take 5)) then false
  else if !(pyIsLower ((code.drop 10).take 5)) || !(pyIsAlpha ((code.drop 10).take 5)) then false
  else true

/-- The disjointness property claimed for generated codes: some letter of
the uppercase segment reappears, case-folded, in the lowercase segment. -/
def lettersShared (code : List Char) : Bool :=
  (code.take 5).any (fun c => ((code.drop 10).take 5).contains c.toLower)

theorem band_true_elim {a b : Bool} (h : (a && b) = true) : a = true ∧ b = true := by
  simp at h
  exact h

theorem lower_upper_alpha :
    ∀ c ∈ ascii_lowercase, ((c.toUpper).isAlpha && !(c.toUpper).isLower) = true := by decide

theorem lower_alpha_notUpper :
    ∀ c ∈ ascii_lowercase, (c.isAlpha && !c.isUpper) = true := by decide

theorem upper_alpha_notLower :
    ∀ c ∈ ascii_uppercase, (c.isAlpha && !c.isLower) = true := by decide

theorem lower_roundtrip : ∀ c ∈ ascii_lowercase, (c.toUpper).toLower = c := by decide

theorem digitChar_isDigit (n : Nat) (h : n ≤ 9) : (Nat.digitChar n).isDigit = true := by
  interval_cases n <;> decide

theorem natDigits_digits (n : Nat) : ∀ c ∈ natDigits n, c.isDigit = true := by
  induction n using Nat.strong_induction_on with
  | _ n ih =>
    intro c hc
    rw [natDigits_eq] at hc
    by_cases h : n < 10
    · rw [if_pos h] at hc
      rw [List.mem_singleton.mp hc]
      exact digitChar_isDigit n (by omega)
    · rw [if_neg h] at hc
      rcases List.mem_append.mp hc with hc1 | hc2
      · exact ih (n / 10) (Nat.div_lt_self (by omega) (by omega)) c hc1
      · rw [List.mem_singleton.mp hc2]
        exact digitChar_isDigit (n % 10) (by omega)

theorem natDigits_length_ge (k : Nat) :
    ∀ n, 10 ^ k ≤ n → k + 1 ≤ (natDigits n).length := by
  induction k with
  | zero =>
    intro n _
    rw [natDigits_eq]
    by_cases h : n < 10
    · rw [if_pos h]; simp
    · rw [if_neg h]; simp
  | succ k ih =>
    intro n h
    have h1 : (10 : Nat) ≤ 10 ^ (k + 1) := by
      calc (10 : Nat) = 10 ^ 1 := by norm_num
        _ ≤ 10 ^ (k + 1) := Nat.pow_le_pow_right (by omega) (by omega)
    have h10 : ¬ n < 10 := by omega
    rw [natDigits_eq]
    rw [if_neg h10, List.length_append]
    have hsub : 10 ^ k ≤ n / 10 := by
      rw [Nat.le_div_iff_mul_le (by omega)]
      calc 10 ^ k * 10 = 10 ^ (k + 1) := by ring
        _ ≤ n := h
    have := ih (n / 10) hsub
    simp only [List.length_singleton]
    omega

/-- A 5+5+5 code whose first block is uncased-or-upper alphabetic, middle
block digits, last block uncased-or-lower alphabetic, passes
`validate_referral_code_format`. -/
theorem code_format_of_parts (U D L : List Char)
    (hUlen : U.length = 5) (hDlen : D.length = 5) (hLlen : L.length = 5)
    (hUa : ∀ c ∈ U, (c.isAlpha && !c.isLower) = true)
    (hDd : ∀ c ∈ D, c.isDigit = true)
    (hLa : ∀ c ∈ L, (c.isAlpha && !c.isUpper) = true) :
    validate_referral_code_format (U ++ (D ++ L)) = true := by
  have htake5 : (U ++ (D ++ L)).take 5 = U := by
    rw [← hUlen]; exact List.take_left U _
  have hdrop5 : (U ++ (D ++ L)).drop 5 = D ++ L := by
    rw [← hUlen]; exact List.drop_left U _
  have hmid : ((U ++ (D ++ L)).drop 5).take 5 = D := by
    rw [hdrop5, ← hDlen]; exact List.take_left D L
  have hdrop10 : (U ++ (D ++ L)).drop 10 = L := by
    rw [show (10 : Nat) = 5 + 5 from rfl, ← List.drop_drop, hdrop5, ← hDlen]
    exact List.drop_left D L
  have hlast : ((U ++ (D ++ L)).drop 10).take 5 = L := by
    rw [hdrop10]
    exact List.take_of_length_le (by omega)
  have hlen : (U ++ (D ++ L)).length = 15 := by
    simp [List.length_append, hUlen, hDlen, hLlen]
  have hUne : U ≠ [] := by intro hn; rw [hn] at hUlen; simp at hUlen
  have hDne : D ≠ [] := by intro hn; rw [hn] at hDlen; simp at hDlen
  have hLne : L ≠ [] := by intro hn; rw [hn] at hLlen; simp at hLlen
  obtain ⟨u0, hu0⟩ := List.exists_mem_of_ne_nil U hUne
  obtain ⟨l0, hl0⟩ := List.exists_mem_of_ne_nil L hLne
  have hup : pyIsUpper U = true := by
    rw [pyIsUpper, Bool.and_eq_true]
    constructor
    · exact List.any_eq_true.mpr ⟨u0, hu0, (band_true_elim (hUa u0 hu0)).1⟩
    · exact List.all_eq_true.mpr fun c hc => (band_true_elim (hUa c hc)).2
  have hupa : pyIsAlpha U = true := by
    rw [pyIsAlpha, Bool.and_eq_true]
    refine ⟨by simp [hUne], ?_⟩
    exact List.all_eq_true.mpr fun c hc => (band_true_elim (hUa c hc)).1
  have hdig : pyIsDigit D = true := by
    rw [pyIsDigit, Bool.and_eq_true]
    exact ⟨by simp [hDne], List.all_eq_true.mpr hDd⟩
  have hlow : pyIsLower L = true := by
    rw [pyIsLower, Bool.and_eq_true]
    constructor
    · exact List.any_eq_true.mpr ⟨l0, hl0, (band_true_elim (hLa l0 hl0)).1⟩
    · exact List.all_eq_true.mpr fun c hc => (band_true_elim (hLa c hc)).2
  have hlowa : pyIsAlpha L = true := by
    rw [pyIsAlpha, Bool.and_eq_true]
    refine ⟨by simp [hLne], ?_⟩
    exact List.all_eq_true.mpr fun c hc => (band_true_elim (hLa c hc)).1
  rw [validate_referral_code_format]
  rw [htake5, hmid, hlast, hlen]
  simp [hup, hupa, hdig, hlow, hlowa]

/-- A 5+5+5 code whose first-block letters never reappear case-folded in
the last block has no shared letters. -/
theorem code_disjoint_of_parts (U D L : List Char)
    (hUlen : U.length = 5) (hDlen : D.length = 5) (hLlen : L.length = 5)
    (hshare : ∀ c ∈ U, L.contains c.toLower = false) :
    lettersShared (U ++ (D ++ L)) = false := by
  have htake5 : (U ++ (D ++ L)).take 5 = U := by
    rw [← hUlen]; exact List.take_left U _
  have hdrop5 : (U ++ (D ++ L)).drop 5 = D ++ L := by
    rw [← hUlen]; exact List.drop_left U _
  have hdrop10 : (U ++ (D ++ L)).drop 10 = L := by
    rw [show (10 : Nat) = 5 + 5 from rfl, ← List.drop_drop, hdrop5, ← hDlen]
    exact List.drop_left D L
  have hLtake : L.take 5 = L := List.take_of_length_le (by omega)
  rw [lettersShared, htake5, hdrop10, hLtake, List.any_eq_false]
  intro c hc
  simpa using hshare c hc

/-- A structured-loop code from valid draws passes the format check and
has case-disjoint letter segments. -/
theorem structured_code_ok (d : CodeDraw) (hd : ValidDraw d) :
    validate_referral_code_format (mkStructuredCode d) = true ∧
    lettersShared (mkStructuredCode d) = false := by
  obtain ⟨hsl, _hnodup, hsub, hul, husub, hdl, hdig⟩ := hd
  have hcode : mkStructuredCode d =
      d.upper_sample.map Char.toUpper ++
        (d.digit_draws.map Nat.digitChar ++ d.selected_letters) := by
    rw [mkStructuredCode, List.append_assoc]
  have hUlen : (d.upper_sample.map Char.toUpper).length = 5 := by
    rw [List.length_map]; exact hul
  have hDlen : (d.digit_draws.map Nat.digitChar).length = 5 := by
    rw [List.length_map]; exact hdl
  have hUa : ∀ c ∈ d.upper_sample.map Char.toUpper, (c.isAlpha && !c.isLower) = true := by
    intro c hc
    obtain ⟨c0, hc0, rfl⟩ := List.mem_map.mp hc
    exact lower_upper_alpha c0 (List.mem_filter.mp (husub c0 hc0)).1
  have hDd : ∀ c ∈ d.digit_draws.map Nat.digitChar, c.isDigit = true := by
    intro c hc
    obtain ⟨n, hn, rfl⟩ := List.mem_map.mp hc
    exact digitChar_isDigit n (hdig n hn)
  have hLa : ∀ c ∈ d.selected_letters, (c.isAlpha && !c.isUpper) = true :=
    fun c hc => lower_alpha_notUpper c (hsub c hc)
  have hshare : ∀ c ∈ d.upper_sample.map Char.toUpper,
      d.selected_letters.contains c.toLower = false := by
    intro c hc
    obtain ⟨c0, hc0, rfl⟩ := List.mem_map.mp hc
    have hmf := List.mem_filter.mp (husub c0 hc0)
    rw [lower_roundtrip c0 hmf.1]
    have hnc : ¬ d.selected_letters.contains c0 = true := by
      intro hcon
      rw [hcon] at hmf
      simp at hmf
    simpa using hnc
  rw [hcode]
  exact ⟨code_format_of_parts _ _ _ hUlen hDlen hsl hUa hDd hLa,
         code_disjoint_of_parts _ _ _ hUlen hDlen hsl hshare⟩

/-- A fallback code from valid draws passes the format check (but need not
have disjoint letter segments). -/
theorem fallback_code_ok (fb : FallbackDraw) (hfb : ValidFallbackDraw fb) :
    validate_referral_code_format (generate_fallback_code fb) = true := by
  obtain ⟨hul, hua, hll, hla, hts⟩ := hfb
  have hcode : generate_fallback_code fb =
      fb.upper_choices ++ (lastFive (natDigits fb.timestamp) ++ fb.lower_choices) := by
    rw [generate_fallback_code, List.append_assoc]
  have hdl : 5 ≤ (natDigits fb.timestamp).length := by
    have := natDigits_length_ge 4 fb.timestamp (by norm_num; omega)
    omega
  have hmidlen : (lastFive (natDigits fb.timestamp)).length = 5 := by
    rw [lastFive, List.length_drop]
    omega
  have hmidd : ∀ c ∈ lastFive (natDigits fb.timestamp), c.isDigit = true := by
    intro c hc
    exact natDigits_digits fb.timestamp c (List.drop_subset _ _ hc)
  rw [hcode]
  exact code_format_of_parts _ _ _ hul hmidlen hll
    (fun c hc => upper_alpha_notLower c (hua c hc))
    hmidd
    (fun c hc => lower_alpha_notUpper c (hla c hc))

/-- Claim C8, amended: every code the generator produces (structured loop
or timestamp fallback) is 15 characters long with 5 uppercase letters,
5 digits and 5 lowercase letters; a code produced by the structured loop
additionally has case-disjoint letter segments, but a fallback code need
not (see the counterexample). -/
theorem referral_code_format_amended (draws : List CodeDraw) (fb : FallbackDraw)
    (codeExists : List Char → Bool)
    (hdraws : ∀ d ∈ draws, ValidDraw d) (hfb : ValidFallbackDraw fb) :
    validate_referral_code_format (generate_unique_referral_code draws codeExists fb) = true ∧
    (generate_unique_referral_code draws codeExists fb = generate_fallback_code fb ∨
     lettersShared (generate_unique_referral_code draws codeExists fb) = false) := by
  induction draws with
  | nil =>
    rw [generate_unique_referral_code]
    exact ⟨fallback_code_ok fb hfb, Or.inl rfl⟩
  | cons d rest ih =>
    rw [generate_unique_referral_code]
    by_cases hrem : (remainingLetters d.selected_letters).length < 5
    · rw [if_pos hrem]
      exact ih (fun x hx => hdraws x (List.mem_cons_of_mem d hx))
    · rw [if_neg hrem]
      by_cases hex : codeExists (mkStructuredCode d) = true
      · simp only [hex, if_true]
        exact ih (fun x hx => hdraws x (List.mem_cons_of_mem d hx))
      · simp only [hex, if_false]
        have hok := structured_code_ok d (hdraws d (List.mem_cons_self d rest))
        exact ⟨hok.1, Or.inr hok.2⟩

/-- Concrete instance of the amended claim C8 at one valid structured draw
and one valid fallback draw. -/
theorem referral_code_format_amended_witness :
    (∀ d ∈ [(⟨"abcde".toList, "fghij".toList, [0, 1, 2, 3, 4]⟩ : CodeDraw)], ValidDraw d) ∧
    ValidFallbackDraw ⟨1700000000, "KLMNO".toList, "pqrst".toList⟩ ∧
    (validate_referral_code_format
       (generate_unique_referral_code [⟨"abcde".toList, "fghij".toList, [0, 1, 2, 3, 4]⟩]
         (fun _ => false) ⟨1700000000, "KLMNO".toList, "pqrst".toList⟩) = true ∧
     (generate_unique_referral_code [⟨"abcde".toList, "fghij".toList, [0, 1, 2, 3, 4]⟩]
         (fun _ => false) ⟨1700000000, "KLMNO".toList, "pqrst".toList⟩ =
        generate_fallback_code ⟨1700000000, "KLMNO".toList, "pqrst".toList⟩ ∨
      lettersShared
        (generate_unique_referral_code [⟨"abcde".toList, "fghij".toList, [0, 1, 2, 3, 4]⟩]
          (fun _ => false) ⟨1700000000, "KLMNO".toList, "pqrst".toList⟩) = false)) :=
  ⟨by intro d hd; rw [List.mem_singleton.mp hd]; exact ⟨by decide, by decide, by decide,
      by decide, by decide, by decide, by decide⟩,
   ⟨by decide, by decide, by decide, by decide, by decide⟩,
   referral_code_format_amended [⟨"abcde".toList, "fghij".toList, [0, 1, 2, 3, 4]⟩]
     ⟨1700000000, "KLMNO".toList, "pqrst".toList⟩ (fun _ => false)
     (by intro d hd; rw [List.mem_singleton.mp hd]; exact ⟨by decide, by decide, by decide,
        by decide, by decide, by decide, by decide⟩)
     ⟨by decide, by decide, by decide, by decide, by decide⟩⟩

/-- Counterexample to claim C8 as stated: a reachable fallback draw (all
100 structured attempts collide with the store) produces the code
`AAAAA43185aaaaa`, which passes the format check but shares the letter `a`
between its uppercase and lowercase segments. -/
theorem referral_code_disjoint_counterexample :
    ValidFallbackDraw ⟨1699943185, "AAAAA".toList, "aaaaa".toList⟩ ∧
    generate_unique_referral_code
        (List.replicate 100 ⟨"abcde".toList, "fghij".toList, [0, 1, 2, 3, 4]⟩)
        (fun _ => true) ⟨1699943185, "AAAAA".toList, "aaaaa".toList⟩ =
      generate_fallback_code ⟨1699943185, "AAAAA".toList, "aaaaa".toList⟩ ∧
    validate_referral_code_format
        (generate_fallback_code ⟨1699943185, "AAAAA".toList, "aaaaa".toList⟩) = true ∧
    lettersShared (generate_fallback_code ⟨1699943185, "AAAAA".toList, "aaaaa".toList⟩) = true :=
  ⟨⟨by decide, by decide, by decide, by decide, by decide⟩, by decide, by decide, by decide⟩

/-! ## Python string primitives
(Embedded over the character list of the string, because the claims need
them evaluated on concrete inputs.) -/

/-- Python `str.strip()`: drop whitespace from both ends. -/
def pyStrip (s : String) : String :=
  String.mk (((s.toList.dropWhile Char.isWhitespace).reverse.dropWhile
    Char.isWhitespace).reverse)

/-- Python `str.lower()` on ASCII data. -/
def pyLower (s : String) : String := String.mk (s.toList.map Char.toLower)

/-- Python `str.upper()` on ASCII data. -/
def pyUpper (s : String) : String := String.mk (s.toList.map Char.toUpper)

/-- Python `str.replace(c, "")` for a one-character pattern: remove every
occurrence. -/
def pyRemoveAll (c : Char) (s : String) : String :=
  String.mk (s.toList.filter (fun x => x ≠ c))

/-! ## Authentication state (`auth_manager.py` tables, after the
`migrate_security.py` migration added `user_sessions.is_active`) -/

/-- Row of the `users` table; confidential fields hold ciphertext. -/
structure UserRow where
  id : Nat
  encrypted_email : String
  encrypted_full_name : String
  license_key : String
  payment_status : String
  login_count : Nat
  is_active : Bool
deriving DecidableEq

/-- Row of the `user_sessions` table; `is_active` defaults to true on
insertion (migration default 1). -/
structure SessionRow where
  user_id : Nat
  session_token : String
  expires_at : Nat
  is_active : Bool
deriving DecidableEq

/-- The authentication database `profitpal_auth.db`. -/
structure AuthDB where
  users : List UserRow
  sessions : List SessionRow
deriving DecidableEq

/-- Decrypted view of a user row, as the dict built by
`get_user_by_email` (a failed name decryption leaves `none`). -/
structure UserView where
  id : Nat
  email : String
  full_name : Option String
  license_key : String
  payment_status : String
  login_count : Nat
  is_active : Bool
deriving DecidableEq

/-- Embedding of `AuthManager.get_user_by_email` (lines 164-199): scan the
active rows, decrypt each email with the external `decrypt` oracle, skip
rows that fail to decrypt (or decrypt to the empty string, which is falsy
in Python), and return the first whose lowercased decrypted email equals
the lowercased, stripped request email. -/
def get_user_by_email (decrypt : String → Option String) (db : AuthDB)
    (email : String) : Option UserView :=
  (db.users.filter (fun u => u.is_active)).findSome? (fun row =>
    (decrypt row.encrypted_email).bind (fun e =>
      if e != "" && pyLower e == pyStrip (pyLower email) then
        some ⟨row.id, e, decrypt row.encrypted_full_name, row.license_key,
              row.payment_status, row.login_count, row.is_active⟩
      else none))

/-- Outcome of `AuthManager.validate_credentials`, one constructor per
return dictionary. -/
inductive ValidationResult where
  | notFound
  | invalidLicense
  | paymentIncomplete
  | valid (user : UserView)
deriving DecidableEq

/-- The normalization `license_key.strip().upper()` applied to the
supplied license in `validate_credentials`. -/
def normalize_license (license_key : String) : String := pyUpper (pyStrip license_key)

/-- Embedding of `AuthManager.validate_credentials` (lines 201-253); the
attempt-log insert has no bearing on the result and is omitted. -/
def validate_credentials (decrypt : String → Option String) (db : AuthDB)
    (email license_key : String) : ValidationResult :=
  match get_user_by_email decrypt db email with
  | none => .notFound
  | some user =>
    if user.license_key ≠ normalize_license license_key then .invalidLicense
    else if user.payment_status ≠ "completed" then .paymentIncomplete
    else .valid user

/-- The claims dictionary returned by `validate_session`. -/
structure SessionClaims where
  user_id : Nat
  license_key : String
  expires_at : Nat
deriving DecidableEq

/-- Embedding of `AuthManager.validate_session` (lines 325-355): the query
joins `user_sessions` with `users` and filters on the token, on
`expires_at > now`, and on the USER's `is_active` flag; it does NOT test
the session row's own `is_active` flag. -/
def validate_session (db : AuthDB) (now : Nat) (token : String) :
    Option SessionClaims :=
  db.sessions.findSome? (fun s =>
    if s.session_token = token ∧ now < s.expires_at then
      (db.users.find? (fun u => u.id == s.user_id && u.is_active)).map
        (fun u => ⟨s.user_id, u.license_key, s.expires_at⟩)
    else none)

/-- Embedding of `security._fetch_user_by_session`: unlike
`validate_session`, its query also requires the SESSION row's `is_active`
flag; returns the joined user id and user-active flag. -/
def fetch_user_by_session (db : AuthDB) (now : Nat) (token : String) :
    Option (Nat × Bool) :=
  if token = "" then none
  else
    db.sessions.findSome? (fun s =>
      if s.session_token = token ∧ s.is_active = true ∧ now < s.expires_at then
        (db.users.find? (fun u => u.id == s.user_id)).map (fun u => (u.id, u.is_active))
      else none)

/-- Embedding of the logout handler `api_logout` (main.py lines
1448-1462): `UPDATE user_sessions SET is_active=0 WHERE session_token = ?`,
the system's session revocation. -/
def api_logout_revoke (db : AuthDB) (token : String) : AuthDB :=
  { db with sessions := db.sessions.map (fun s =>
      if s.session_token == token then { s with is_active := false } else s) }

/-- 30 days in seconds, the session validity window. -/
def thirtyDays : Nat := 30 * 86400

/-- Embedding of `AuthManager.create_session` (lines 297-323): insert a
session row carrying the externally generated token, expiring 30 days from
now (the migrated `is_active` column defaults to 1). -/
def create_session (db : AuthDB) (user_id : Nat) (token : String) (now : Nat) :
    String × AuthDB :=
  (token,
   { db with sessions := db.sessions ++ [⟨user_id, token, now + thirtyDays, true⟩] })

/-- Embedding of `AuthManager.update_last_login` (lines 357-373). -/
def update_last_login (db : AuthDB) (user_id : Nat) : AuthDB :=
  { db with users := db.users.map (fun u =>
      if u.id == user_id then { u with login_count := u.login_count + 1 } else u) }

/-- The name check of `authenticate_user`: a non-empty supplied name must
match the stored decrypted name (a missing stored name always mismatches,
as Python `str != None` is true). -/
def name_mismatch (full_name stored : Option String) : Bool :=
  match full_name with
  | none => false
  | some n =>
    if n == "" then false
    else
      match stored with
      | none => true
      | some fn => pyStrip n != fn

/-- Outcome of `AuthManager.authenticate_user`. -/
inductive AuthUserResult where
  | invalid (r : ValidationResult)
  | nameMismatch
  | authenticated (session_token : String) (user : UserView)
deriving DecidableEq

/-- Embedding of `AuthManager.authenticate_user` (lines 255-295):
validate credentials, optionally check the display name, then bump the
login counter and persist a session. -/
def authenticate_user (decrypt : String → Option String) (db : AuthDB)
    (email license_key : String) (full_name : Option String)
    (freshToken : String) (now : Nat) : AuthUserResult × AuthDB :=
  match validate_credentials decrypt db email license_key with
  | .valid user =>
    if name_mismatch full_name user.full_name then (.nameMismatch, db)
    else
      let db1 := update_last_login db user.id
      let p := create_session db1 user.id freshToken now
      (.authenticated p.1 user, p.2)
  | r => (.invalid r, db)

/-- The admin configuration read from environment variables. -/
structure AdminEnv where
  admin_email : String
  admin_license_key : String
  admin_full_name : String
deriving DecidableEq

/-- The license normalization of `authenticate_user_login`: strip,
uppercase, drop spaces. -/
def normKeyLogin (s : String) : String := pyRemoveAll ' ' (pyUpper (pyStrip s))

/-- Hyphen removal, the tolerated license variant. -/
def stripHyphens (s : String) : String := pyRemoveAll '-' s

/-- The admin fast-path condition of `authenticate_user_login`
(auth_manager.py lines 493-501): normalized emails equal, and normalized
licenses equal either exactly or after hyphen stripping. -/
def admin_fast_path (env : AdminEnv) (email license_key : String) : Bool :=
  pyLower (pyStrip email) == pyLower (pyStrip env.admin_email) &&
    (normKeyLogin license_key == normKeyLogin env.admin_license_key ||
     stripHyphens (normKeyLogin license_key) ==
       stripHyphens (normKeyLogin env.admin_license_key))

/-- Outcome of the module-level `authenticate_user_login`. -/
inductive AuthOutcome where
  | admin (session_token : String) (email full_name : String)
  | normal (r : AuthUserResult)
deriving DecidableEq

/-- Embedding of `authenticate_user_login` (auth_manager.py lines
466-520): the admin fast path mints a fresh token and returns a synthetic
admin identity without touching the database; otherwise the call is
delegated to `AuthManager.authenticate_user`. -/
def authenticate_user_login (env : AdminEnv) (decrypt : String → Option String)
    (db : AuthDB) (email license_key : String) (full_name : Option String)
    (freshToken : String) (now : Nat) : AuthOutcome × AuthDB :=
  if admin_fast_path env email license_key then
    (.admin freshToken (pyLower (pyStrip env.admin_email)) env.admin_full_name, db)
  else
    let p := authenticate_user decrypt db email license_key full_name freshToken now
    (.normal p.1, p.2)

/-- Embedding of `security.verify_csrf` (security.py lines 213-220):
accept only when both the header token and the cookie token are present
and equal; its only inputs are the two tokens, so the decision cannot
depend on session validity. -/
def verify_csrf (header cookie : Option String) : Bool :=
  match header, cookie with
  | some h, some c => h == c
  | _, _ => false

/-! ## License issuer (`generate_license_key`, lines 91-108) -/

/-- The characters `hashlib.sha256(...).hexdigest()` can produce. -/
def hexLowerChars : List Char := "0123456789abcdef".toList

/-- Embedding of `AuthManager.generate_license_key`: the admin override
returns the configured key verbatim; otherwise the key is derived by
hashing (external `hashHex` oracle standing for the SHA-256 hex digest)
the seed of normalized email, normalized name, current time and random
nonce, then shaping twelve uppercased hex characters as
`PP-XXXX-XXXX-XXXX`. Key characters are a `List Char`. -/
def generate_license_key (env_admin_email env_admin_key : String)
    (hashHex : String → List Char) (nowIso nonce : String)
    (email full_name : String) : List Char :=
  if pyStrip (pyLower email) == pyLower env_admin_email then env_admin_key.toList
  else
    let seed := pyStrip (pyLower email) ++ "_" ++ pyStrip (pyUpper full_name) ++ "_"
      ++ nowIso ++ "_" ++ nonce
    let key_part := ((hashHex seed).take 12).map Char.toUpper
    "PP-".toList ++ key_part.take 4 ++ "-".toList ++ ((key_part.drop 4).take 4)
      ++ "-".toList ++ ((key_part.drop 8).take 4)

/-- Uppercase hexadecimal digit (what `hexdigest[:12].upper()` yields). -/
def isUpperHexDigit (c : Char) : Bool := c.isDigit || ('A' ≤ c && c ≤ 'F')

/-- The fixed license shape `PP-XXXX-XXXX-XXXX` with uppercase hex `X`s. -/
def isLicenseShape (s : List Char) : Bool :=
  s.length == 17 && s.take 3 == "PP-".toList &&
  ((s.drop 3).take 4).all isUpperHexDigit &&
  ((s.drop 7).take 1 == "-".toList) &&
  ((s.drop 8).take 4).all isUpperHexDigit &&
  ((s.drop 12).take 1 == "-".toList) &&
  ((s.drop 13).take 4).all isUpperHexDigit

/-! ## Claim C4: session validity vs the session active flag -/

/-- A one-user, one-session database: the session is unexpired at time 500
(expiry 1000) and its user is active. -/
def demoAuthDB : AuthDB :=
  ⟨[⟨1, "encE", "encN", "PP-TEST-0000-0000", "completed", 0, true⟩],
   [⟨1, "tok-abc", 1000, true⟩]⟩

/-- Claim C4 fails on the code: `api_logout` revokes by clearing the
session row's `is_active` flag, but `validate_session` never tests that
flag, so the revoked, unexpired session still validates (while the
parallel `security._fetch_user_by_session` lookup correctly rejects it). -/
theorem revoked_session_still_validates :
    (500 : Nat) < 1000 ∧
    (api_logout_revoke demoAuthDB "tok-abc").sessions = [⟨1, "tok-abc", 1000, false⟩] ∧
    validate_session (api_logout_revoke demoAuthDB "tok-abc") 500 "tok-abc" =
      some ⟨1, "PP-TEST-0000-0000", 1000⟩ ∧
    fetch_user_by_session (api_logout_revoke demoAuthDB "tok-abc") 500 "tok-abc" = none :=
  ⟨by decide, by decide, by decide, by decide⟩

/-! ## Claim C9: the CSRF double-submit check -/

/-- Claim C9: the anti-forgery check accepts exactly when a presented
header token exists and equals the cookie token of the session's cookie
pair; absence of either, or a mismatch, is rejected. Its only inputs are
the two tokens, so the decision is independent of session validity. -/
theorem csrf_double_submit (header cookie : Option String) :
    (verify_csrf header cookie = true ↔ ∃ t, header = some t ∧ cookie = some t) ∧
    (header = none → verify_csrf header cookie = false) ∧
    (cookie = none → verify_csrf header cookie = false) ∧
    (∀ h c, header = some h → cookie = some c → h ≠ c →
      verify_csrf header cookie = false) := by
  refine ⟨?_, ?_, ?_, ?_⟩
  · cases header with
    | none => simp [verify_csrf]
    | some h =>
      cases cookie with
      | none => simp [verify_csrf]
      | some c =>
        simp only [verify_csrf, beq_iff_eq]
        constructor
        · intro he
          exact ⟨h, rfl, by rw [he]⟩
        · rintro ⟨t, ht, hc⟩
          rw [Option.some.injEq] at ht hc
          rw [ht, hc]
  · intro hh
    rw [hh]
    cases cookie <;> rfl
  · intro hc
    rw [hc]
    cases header <;> rfl
  · intro h c hh hc hne
    rw [hh, hc]
    simpa [verify_csrf] using hne

/-- Concrete instance of claim C9: equal pair accepted, mismatched pair
rejected. -/
theorem csrf_double_submit_witness :
    verify_csrf (some "t0ken") (some "t0ken") = true ∧
    verify_csrf (some "t0ken") (some "other") = false ∧
    verify_csrf none (some "t0ken") = false :=
  ⟨(csrf_double_submit (some "t0ken") (some "t0ken")).1.mpr ⟨"t0ken", rfl, rfl⟩,
   (csrf_double_submit (some "t0ken") (some "other")).2.2.2 "t0ken" "other" rfl rfl
     (by decide),
   (csrf_double_submit none (some "t0ken")).2.1 rfl⟩

/-! ## Claim C7: credential validation -/

/-- The scan returns nothing exactly when no active row decrypts to a
matching non-empty email. -/
theorem get_user_none_iff (decrypt : String → Option String) (db : AuthDB)
    (email : String) :
    get_user_by_email decrypt db email = none ↔
      ∀ row ∈ db.users, row.is_active = true →
        ∀ e, decrypt row.encrypted_email = some e →
          e = "" ∨ pyLower e ≠ pyStrip (pyLower email) := by
  rw [get_user_by_email, List.findSome?_eq_none_iff]
  constructor
  · intro h row hrow hact e he
    have hmem : row ∈ db.users.filter (fun u => u.is_active) :=
      List.mem_filter.mpr ⟨hrow, by rw [hact]⟩
    have hrn := h row hmem
    rw [he] at hrn
    simp only [Option.some_bind] at hrn
    cases hbc : (e != "" && pyLower e == pyStrip (pyLower email)) with
    | true =>
      rw [if_pos hbc] at hrn
      exact absurd hrn (by simp)
    | false =>
      simp only [Bool.and_eq_false_iff, bne_eq_false_iff_eq, beq_eq_false_iff_ne] at hbc
      rcases hbc with h1 | h2
      · exact Or.inl h1
      · exact Or.inr h2
  · intro h x hxmem
    obtain ⟨hxin, hxact⟩ := List.mem_filter.mp hxmem
    show ((decrypt x.encrypted_email).bind fun e =>
      if e != "" && pyLower e == pyStrip (pyLower email) then
        some (⟨x.id, e, decrypt x.encrypted_full_name, x.license_key,
              x.payment_status, x.login_count, x.is_active⟩ : UserView)
      else none) = none
    cases hd : decrypt x.encrypted_email with
    | none => rfl
    | some e =>
      simp only [Option.some_bind]
      rcases h x hxin hxact e hd with he | hne
      · simp [he]
      · simp [hne]

/-- Claim C7: `validate_credentials` fails with NotFound exactly when no
active identity decrypts to the claimed email, with InvalidLicense when
the stored license differs from the case-normalized supplied one, with
PaymentIncomplete when payment is not completed, and otherwise returns the
identity, whose license equals the normalized claimed one. -/
theorem credential_validation_cases (decrypt : String → Option String)
    (db : AuthDB) (email license_key : String) :
    (get_user_by_email decrypt db email = none ↔
      ∀ row ∈ db.users, row.is_active = true →
        ∀ e, decrypt row.encrypted_email = some e →
          e = "" ∨ pyLower e ≠ pyStrip (pyLower email)) ∧
    (get_user_by_email decrypt db email = none →
      validate_credentials decrypt db email license_key = .notFound) ∧
    (∀ u, get_user_by_email decrypt db email = some u →
      u.license_key ≠ normalize_license license_key →
      validate_credentials decrypt db email license_key = .invalidLicense) ∧
    (∀ u, get_user_by_email decrypt db email = some u →
      u.license_key = normalize_license license_key →
      u.payment_status ≠ "completed" →
      validate_credentials decrypt db email license_key = .paymentIncomplete) ∧
    (∀ u, get_user_by_email decrypt db email = some u →
      u.license_key = normalize_license license_key →
      u.payment_status = "completed" →
      validate_credentials decrypt db email license_key = .valid u ∧
        u.license_key = normalize_license license_key) := by
  refine ⟨get_user_none_iff decrypt db email, ?_, ?_, ?_, ?_⟩
  · intro h
    rw [validate_credentials, h]
  · intro u hu hne
    rw [validate_credentials, hu]
    simp only [if_pos hne]
  · intro u hu heq hpay
    rw [validate_credentials, hu]
    show (if u.license_key ≠ normalize_license license_key then ValidationResult.invalidLicense
      else if u.payment_status ≠ "completed" then ValidationResult.paymentIncomplete
      else ValidationResult.valid u) = ValidationResult.paymentIncomplete
    rw [if_neg (by rw [heq]; exact fun hc => hc rfl), if_pos hpay]
  · intro u hu heq hpay
    refine ⟨?_, heq⟩
    rw [validate_credentials, hu]
    show (if u.license_key ≠ normalize_license license_key then ValidationResult.invalidLicense
      else if u.payment_status ≠ "completed" then ValidationResult.paymentIncomplete
      else ValidationResult.valid u) = ValidationResult.valid u
    rw [if_neg (by rw [heq]; exact fun hc => hc rfl),
        if_neg (by rw [hpay]; exact fun hc => hc rfl)]

/-- A decryption oracle for the concrete instances: knows one ciphertext. -/
def demoDecrypt : String → Option String :=
  fun s => if s = "enc-alice" then some "alice@example.com" else none

/-- A one-user credential store for the concrete instances. -/
def demoUserDB : AuthDB :=
  ⟨[⟨1, "enc-alice", "enc-name", "PP-AAAA-BBBB-CCCC", "completed", 0, true⟩], []⟩

/-- Concrete instance of claim C7: mixed-case email and lowercase license
validate against the stored identity, and the returned license equals the
normalized claimed one. -/
theorem credential_validation_cases_witness :
    get_user_by_email demoDecrypt demoUserDB " Alice@Example.com " =
      some ⟨1, "alice@example.com", none, "PP-AAAA-BBBB-CCCC", "completed", 0, true⟩ ∧
    ("PP-AAAA-BBBB-CCCC" : String) = normalize_license "pp-aaaa-bbbb-cccc" ∧
    ("completed" : String) = "completed" ∧
    (validate_credentials demoDecrypt demoUserDB " Alice@Example.com " "pp-aaaa-bbbb-cccc" =
       .valid ⟨1, "alice@example.com", none, "PP-AAAA-BBBB-CCCC", "completed", 0, true⟩ ∧
     ("PP-AAAA-BBBB-CCCC" : String) = normalize_license "pp-aaaa-bbbb-cccc") :=
  ⟨by decide, by decide, rfl,
   (credential_validation_cases demoDecrypt demoUserDB " Alice@Example.com "
      "pp-aaaa-bbbb-cccc").2.2.2.2
     ⟨1, "alice@example.com", none, "PP-AAAA-BBBB-CCCC", "completed", 0, true⟩
     (by decide) (by decide) rfl⟩

/-! ## Claim C5: the admin fast path -/

/-- The Boolean fast-path test, unfolded to propositions. -/
theorem admin_fast_path_iff (env : AdminEnv) (email license_key : String) :
    admin_fast_path env email license_key = true ↔
      (pyLower (pyStrip email) = pyLower (pyStrip env.admin_email) ∧
       (normKeyLogin license_key = normKeyLogin env.admin_license_key ∨
        stripHyphens (normKeyLogin license_key) =
          stripHyphens (normKeyLogin env.admin_license_key))) := by
  rw [admin_fast_path]
  simp [Bool.and_eq_true, Bool.or_eq_true]

/-- Claim C5: when the normalized email equals the configured admin email
and the normalized license matches the configured one either exactly or
with hyphens stripped, `authenticate_user_login` returns the synthetic
admin identity with a session token and an untouched database (no
Credential Store access); when the email matches but neither license
variant does, the fast path is skipped and the call is delegated to the
regular store-backed path. -/
theorem admin_bypass (env : AdminEnv) (decrypt : String → Option String)
    (db : AuthDB) (email license_key : String) (full_name : Option String)
    (tok : String) (now : Nat) :
    (pyLower (pyStrip email) = pyLower (pyStrip env.admin_email) →
     (normKeyLogin license_key = normKeyLogin env.admin_license_key ∨
      stripHyphens (normKeyLogin license_key) =
        stripHyphens (normKeyLogin env.admin_license_key)) →
     authenticate_user_login env decrypt db email license_key full_name tok now =
       (.admin tok (pyLower (pyStrip env.admin_email)) env.admin_full_name, db)) ∧
    (pyLower (pyStrip email) = pyLower (pyStrip env.admin_email) →
     normKeyLogin license_key ≠ normKeyLogin env.admin_license_key →
     stripHyphens (normKeyLogin license_key) ≠
       stripHyphens (normKeyLogin env.admin_license_key) →
     authenticate_user_login env decrypt db email license_key full_name tok now =
       (.normal (authenticate_user decrypt db email license_key full_name tok now).1,
        (authenticate_user decrypt db email license_key full_name tok now).2)) := by
  constructor
  · intro he hk
    rw [authenticate_user_login,
      if_pos ((admin_fast_path_iff env email license_key).mpr ⟨he, hk⟩)]
  · intro _he hk1 hk2
    have hnc : ¬ admin_fast_path env email license_key = true := by
      intro hc
      rcases ((admin_fast_path_iff env email license_key).mp hc).2 with h | h
      exacts [hk1 h, hk2 h]
    rw [authenticate_user_login, if_neg hnc]

/-- Concrete instance of claim C5, the end-to-end scenario C of the spec:
the admin email in mixed case with surrounding spaces and the admin
license in lower case with its hyphens stripped authenticate as admin
against an empty credential store. -/
theorem admin_bypass_witness :
    pyLower (pyStrip " Admin@ProfitPal.org ") =
      pyLower (pyStrip ("admin@profitpal.org" : String)) ∧
    stripHyphens (normKeyLogin "ppadmin2025") = stripHyphens (normKeyLogin "PP-ADMIN-2025") ∧
    authenticate_user_login ⟨"admin@profitpal.org", "PP-ADMIN-2025", "Administrator"⟩
        (fun _ => none) ⟨[], []⟩ " Admin@ProfitPal.org " "ppadmin2025" none
        "fresh-tok" 0 =
      (.admin "fresh-tok" (pyLower (pyStrip ("admin@profitpal.org" : String))) "Administrator",
       ⟨[], []⟩) :=
  ⟨by decide, by decide,
   (admin_bypass ⟨"admin@profitpal.org", "PP-ADMIN-2025", "Administrator"⟩
      (fun _ => none) ⟨[], []⟩ " Admin@ProfitPal.org " "ppadmin2025" none
      "fresh-tok" 0).1 (by decide) (Or.inr (by decide))⟩

/-! ## Claim C10: the admin session token is never persisted -/

/-- Claim C10: a successful admin-bypass login returns a fresh token but
writes nothing to the session store, so validating that token (at any
time, including immediately) returns none. -/
theorem admin_token_unusable (env : AdminEnv) (decrypt : String → Option String)
    (db : AuthDB) (email license_key : String) (full_name : Option String)
    (tok : String) (now : Nat)
    (hfast : admin_fast_path env email license_key = true)
    (hfresh : ∀ s ∈ db.sessions, s.session_token ≠ tok) :
    authenticate_user_login env decrypt db email license_key full_name tok now =
      (.admin tok (pyLower (pyStrip env.admin_email)) env.admin_full_name, db) ∧
    (∀ t, validate_session
        (authenticate_user_login env decrypt db email license_key full_name tok now).2
        t tok = none) := by
  have hmain : authenticate_user_login env decrypt db email license_key full_name tok now =
      (.admin tok (pyLower (pyStrip env.admin_email)) env.admin_full_name, db) := by
    rw [authenticate_user_login, if_pos hfast]
  refine ⟨hmain, ?_⟩
  intro t
  rw [hmain]
  show validate_session db t tok = none
  rw [validate_session, List.findSome?_eq_none_iff]
  intro s hs
  rw [if_neg (fun hc => hfresh s hs hc.1)]

/-- Concrete instance of claim C10: an admin login against a store holding
an unrelated session; the minted token does not validate. -/
theorem admin_token_unusable_witness :
    admin_fast_path ⟨"admin@profitpal.org", "PP-ADMIN-2025", "Administrator"⟩
      "admin@profitpal.org" "PP-ADMIN-2025" = true ∧
    (∀ s ∈ (⟨[], [⟨7, "other-token", 99999, true⟩]⟩ : AuthDB).sessions,
      s.session_token ≠ "minted-tok") ∧
    (∀ t, validate_session
        (authenticate_user_login ⟨"admin@profitpal.org", "PP-ADMIN-2025", "Administrator"⟩
          (fun _ => none) ⟨[], [⟨7, "other-token", 99999, true⟩]⟩
          "admin@profitpal.org" "PP-ADMIN-2025" none "minted-tok" 0).2
        t "minted-tok" = none) :=
  ⟨by decide, by decide,
   (admin_token_unusable ⟨"admin@profitpal.org", "PP-ADMIN-2025", "Administrator"⟩
      (fun _ => none) ⟨[], [⟨7, "other-token", 99999, true⟩]⟩
      "admin@profitpal.org" "PP-ADMIN-2025" none "minted-tok" 0
      (by decide) (by decide)).2⟩

/-! ## Claim C6: the license issuer -/

theorem hexUpper_mem : ∀ c ∈ hexLowerChars, isUpperHexDigit c.toUpper = true := by decide

/-- Shape helper: three 4-character uppercase-hex blocks in the
`PP-` / `-` / `-` frame pass `isLicenseShape`. -/
theorem isLicenseShape_of_blocks (A B C : List Char)
    (hA : A.length = 4) (hB : B.length = 4) (hC : C.length = 4)
    (hAx : A.all isUpperHexDigit = true) (hBx : B.all isUpperHexDigit = true)
    (hCx : C.all isUpperHexDigit = true) :
    isLicenseShape ("PP-".toList ++ A ++ "-".toList ++ B ++ "-".toList ++ C) = true := by
  have hre : "PP-".toList ++ A ++ "-".toList ++ B ++ "-".toList ++ C =
      "PP-".toList ++ (A ++ ("-".toList ++ (B ++ ("-".toList ++ C)))) := by
    simp [List.append_assoc]
  rw [hre]
  have h3 : ("PP-".toList).length = 3 := rfl
  have h1 : ("-".toList).length = 1 := rfl
  have htake3 : ("PP-".toList ++ (A ++ ("-".toList ++ (B ++ ("-".toList ++ C))))).take 3 =
      "PP-".toList := by
    rw [← h3]; exact List.take_left _ _
  have hdrop3 : ("PP-".toList ++ (A ++ ("-".toList ++ (B ++ ("-".toList ++ C))))).drop 3 =
      A ++ ("-".toList ++ (B ++ ("-".toList ++ C))) := by
    rw [← h3]; exact List.drop_left _ _
  have hblockA : (("PP-".toList ++ (A ++ ("-".toList ++ (B ++ ("-".toList ++ C))))).drop 3).take 4 =
      A := by
    rw [hdrop3, ← hA]; exact List.take_left _ _
  have hdrop7 : ("PP-".toList ++ (A ++ ("-".toList ++ (B ++ ("-".toList ++ C))))).drop 7 =
      "-".toList ++ (B ++ ("-".toList ++ C)) := by
    rw [show (7 : Nat) = 3 + 4 from rfl, ← List.drop_drop, hdrop3, ← hA]
    exact List.drop_left _ _
  have hdash1 : (("PP-".toList ++ (A ++ ("-".toList ++ (B ++ ("-".toList ++ C))))).drop 7).take 1 =
      "-".toList := by
    rw [hdrop7, ← h1]; exact List.take_left _ _
  have hdrop8 : ("PP-".toList ++ (A ++ ("-".toList ++ (B ++ ("-".toList ++ C))))).drop 8 =
      B ++ ("-".toList ++ C) := by
    rw [show (8 : Nat) = 7 + 1 from rfl, ← List.drop_drop, hdrop7, ← h1]
    exact List.drop_left _ _
  have hblockB : (("PP-".toList ++ (A ++ ("-".toList ++ (B ++ ("-".toList ++ C))))).drop 8).take 4 =
      B := by
    rw [hdrop8, ← hB]; exact List.take_left _ _
  have hdrop12 : ("PP-".toList ++ (A ++ ("-".toList ++ (B ++ ("-".toList ++ C))))).drop 12 =
      "-".toList ++ C := by
    rw [show (12 : Nat) = 8 + 4 from rfl, ← List.drop_drop, hdrop8, ← hB]
    exact List.drop_left _ _
  have hdash2 : (("PP-".toList ++ (A ++ ("-".toList ++ (B ++ ("-".toList ++ C))))).drop 12).take 1 =
      "-".toList := by
    rw [hdrop12, ← h1]; exact List.take_left _ _
  have hdrop13 : ("PP-".toList ++ (A ++ ("-".toList ++ (B ++ ("-".toList ++ C))))).drop 13 =
      C := by
    rw [show (13 : Nat) = 12 + 1 from rfl, ← List.drop_drop, hdrop12, ← h1]
    exact List.drop_left _ _
  have hblockC : (("PP-".toList ++ (A ++ ("-".toList ++ (B ++ ("-".toList ++ C))))).drop 13).take 4 =
      C := by
    rw [hdrop13]; exact List.take_of_length_le (by omega)
  have hlen : ("PP-".toList ++ (A ++ ("-".toList ++ (B ++ ("-".toList ++ C))))).length = 17 := by
    simp [List.length_append, hA, hB, hC]
  rw [isLicenseShape, htake3, hblockA, hdash1, hblockB, hdash2, hblockC, hlen]
  simp [hAx, hBx, hCx]

/-- Claim C6, amended: `generate_license_key` returns the configured
administrative key verbatim when the normalized email equals the
configured admin email, and otherwise derives a key of the fixed shape
`PP-XXXX-XXXX-XXXX` from the hash of the seed; no collision check against
any store is performed (see the counterexample). -/
theorem license_issuer_amended (env_admin_email env_admin_key : String)
    (hashHex : String → List Char) (nowIso nonce email full_name : String)
    (hlen : ∀ s, (hashHex s).length = 64)
    (hhex : ∀ s, ∀ c ∈ hashHex s, c ∈ hexLowerChars) :
    (pyStrip (pyLower email) = pyLower env_admin_email →
      generate_license_key env_admin_email env_admin_key hashHex nowIso nonce
        email full_name = env_admin_key.toList) ∧
    (pyStrip (pyLower email) ≠ pyLower env_admin_email →
      isLicenseShape (generate_license_key env_admin_email env_admin_key hashHex
        nowIso nonce email full_name) = true) := by
  constructor
  · intro h
    rw [generate_license_key, if_pos (beq_iff_eq.mpr h)]
  · intro h
    rw [generate_license_key, if_neg (by simpa using h)]
    have hkplen : (((hashHex (pyStrip (pyLower email) ++ "_" ++ pyStrip (pyUpper full_name)
        ++ "_" ++ nowIso ++ "_" ++ nonce)).take 12).map Char.toUpper).length = 12 := by
      rw [List.length_map, List.length_take, hlen]
      decide
    have hkpmem : ∀ c ∈ ((hashHex (pyStrip (pyLower email) ++ "_" ++ pyStrip (pyUpper full_name)
        ++ "_" ++ nowIso ++ "_" ++ nonce)).take 12).map Char.toUpper,
        isUpperHexDigit c = true := by
      intro c hc
      obtain ⟨c0, hc0, rfl⟩ := List.mem_map.mp hc
      exact hexUpper_mem c0 (hhex _ c0 (List.take_subset 12 _ hc0))
    refine isLicenseShape_of_blocks _ _ _ ?_ ?_ ?_ ?_ ?_ ?_
    · rw [List.length_take]; omega
    · rw [List.length_take, List.length_drop]; omega
    · rw [List.length_take, List.length_drop]; omega
    · exact List.all_eq_true.mpr fun c hc => hkpmem c (List.take_subset 4 _ hc)
    · exact List.all_eq_true.mpr fun c hc =>
        hkpmem c (List.drop_subset 4 _ (List.take_subset 4 _ hc))
    · exact List.all_eq_true.mpr fun c hc =>
        hkpmem c (List.drop_subset 8 _ (List.take_subset 4 _ hc))

/-- A deterministic stand-in for the SHA-256 hex-digest oracle. -/
def demoHashHex : String → List Char := fun _ =>
  "0123456789abcdef0123456789abcdef0123456789abcdef0123456789abcdef".toList

theorem demoHashHex_len : ∀ s, (demoHashHex s).length = 64 := fun _ => rfl

theorem demoHashHex_hex : ∀ s, ∀ c ∈ demoHashHex s, c ∈ hexLowerChars := by
  intro s
  show ∀ c ∈ ("0123456789abcdef0123456789abcdef0123456789abcdef0123456789abcdef"
    : String).toList, c ∈ hexLowerChars
  decide

/-- A credential store already holding the very key the issuer derives. -/
def demoLicenseStore : List (List Char) := ["PP-0123-4567-89AB".toList]

/-- Concrete instance of the amended claim C6: the admin email receives
the configured key verbatim, and a customer email receives a
`PP-XXXX-XXXX-XXXX`-shaped key. -/
theorem license_issuer_amended_witness :
    (∀ s, (demoHashHex s).length = 64) ∧
    (∀ s, ∀ c ∈ demoHashHex s, c ∈ hexLowerChars) ∧
    pyStrip (pyLower " Admin@ProfitPal.org ") = pyLower "admin@profitpal.org" ∧
    generate_license_key "admin@profitpal.org" "PP-ADMIN-2025" demoHashHex
      "2025-01-01T00:00:00" "beefbeef" " Admin@ProfitPal.org " "Ada Admin" =
      ("PP-ADMIN-2025" : String).toList ∧
    pyStrip (pyLower "bob@example.com") ≠ pyLower "admin@profitpal.org" ∧
    isLicenseShape (generate_license_key "admin@profitpal.org" "PP-ADMIN-2025" demoHashHex
      "2025-01-01T00:00:00" "beefbeef" "bob@example.com" "Bob Smith") = true :=
  ⟨demoHashHex_len, demoHashHex_hex, by decide,
   (license_issuer_amended "admin@profitpal.org" "PP-ADMIN-2025" demoHashHex
      "2025-01-01T00:00:00" "beefbeef" " Admin@ProfitPal.org " "Ada Admin"
      demoHashHex_len demoHashHex_hex).1 (by decide),
   by decide,
   (license_issuer_amended "admin@profitpal.org" "PP-ADMIN-2025" demoHashHex
      "2025-01-01T00:00:00" "beefbeef" "bob@example.com" "Bob Smith"
      demoHashHex_len demoHashHex_hex).2 (by decide)⟩

/-- Counterexample to claim C6 as stated: the issuer consults no store, so
with a store already containing `PP-0123-4567-89AB` it still returns
exactly that colliding identifier, with no regeneration. -/
theorem license_collision_counterexample :
    (∀ s, (demoHashHex s).length = 64) ∧
    (∀ s, ∀ c ∈ demoHashHex s, c ∈ hexLowerChars) ∧
    generate_license_key "admin@profitpal.org" "PP-ADMIN-2025" demoHashHex
      "2025-01-01T00:00:00" "beefbeef" "bob@example.com" "Bob Smith" =
      ("PP-0123-4567-89AB" : String).toList ∧
    ("PP-0123-4567-89AB" : String).toList ∈ demoLicenseStore :=
  ⟨demoHashHex_len, demoHashHex_hex, by decide, by decide⟩

end ProfitPal
